import Mathlib

/-!
Verification of the core of `steam-market-observer` (src/index.js):
the paginated fetch loop, the batch upserter with field fallback, the
cycle scheduler with persisted watermark, and the rate-limiting queue.

JavaScript values that appear in items are modelled by `JVal`; a JS
property lookup returns `Option JVal`, where `none` stands for
`undefined`. Throwing code is modelled with `Except String`.
-/

namespace SMO

/-- Interval between requests to the steam API (`REQUEST_INTERVAL`). -/
def REQUEST_INTERVAL : Nat := 10000

/-- Time to wait on a 'too many requests' error (`REQUEST_COOL_DOWN`). -/
def REQUEST_COOL_DOWN : Nat := 30000

/-- How many items are retrieved per request (`PAGE_SIZE`). -/
def PAGE_SIZE : Nat := 100

/-- List of properties available for an item (`ITEM_PROPERTIES`). -/
def ITEM_PROPERTIES : List String :=
  ["appid", "name", "icon_url", "sell_listings", "classid", "instanceid"]

/-- A primitive JavaScript value stored in an item's property. -/
inductive JVal where
  | str : String → JVal
  | num : Int → JVal
  deriving DecidableEq

/-- A JS object seen as a finite map from property names to values:
looking up an absent key yields `none` (JS `undefined`). -/
def getProp (ps : List (String × JVal)) (k : String) : Option JVal :=
  (ps.find? (fun p => p.1 = k)).map (fun p => p.2)

/-- One item of a response page: its top-level properties and the
optional nested `asset_description` sub-object. -/
structure Item where
  props : List (String × JVal)
  asset_description : Option (List (String × JVal))
  deriving DecidableEq

/-- The value resolved for one whitelisted property of one item:
`item[prop] !== undefined ? item[prop] : item['asset_description'][prop]`.
When `item[prop]` is `undefined` and `asset_description` is itself
`undefined`, the member access on `undefined` throws a `TypeError`. -/
def resolveProp (item : Item) (prop : String) : Except String (Option JVal) :=
  match getProp item.props prop with
  | some v => .ok (some v)
  | none =>
    match item.asset_description with
    | none => .error ("TypeError: cannot read property " ++ prop ++ " of undefined")
    | some d => .ok (getProp d prop)

/-- The whitelisted portion of the `$set` document built by `pushToDB`:
iterate over `ITEM_PROPERTIES`, keeping the properties that the
configured whitelist (`config['properties']`) contains. -/
def buildProps (whitelist : List String) (item : Item) :
    List String → Except String (List (String × Option JVal))
  | [] => .ok []
  | p :: rest =>
    if whitelist.contains p then
      match resolveProp item p with
      | .error e => .error e
      | .ok v =>
        match buildProps whitelist item rest with
        | .error e => .error e
        | .ok l => .ok ((p, v) :: l)
    else buildProps whitelist item rest

/-- The full `$set` document for one item: `sell_price` always, then the
whitelisted properties in `ITEM_PROPERTIES` order. -/
def buildToSet (whitelist : List String) (item : Item) :
    Except String (List (String × Option JVal)) :=
  match buildProps whitelist item ITEM_PROPERTIES with
  | .error e => .error e
  | .ok l => .ok (("sell_price", getProp item.props "sell_price") :: l)

/-- One upsert operation of the bulk write: the `hash_name` key the
document is found by, and the `$set` document. -/
structure UpsertOp where
  key : Option JVal
  toSet : List (String × Option JVal)
  deriving DecidableEq

/-- `pushToDB(items)`: build one upsert operation per item; the first
item whose `$set` construction throws aborts the whole call before the
bulk is executed. An `.ok` result is the executed batch. -/
def pushToDB (whitelist : List String) : List Item → Except String (List UpsertOp)
  | [] => .ok []
  | item :: rest =>
    match buildToSet whitelist item with
    | .error e => .error e
    | .ok ts =>
      match pushToDB whitelist rest with
      | .error e => .error e
      | .ok ops => .ok (⟨getProp item.props "hash_name", ts⟩ :: ops)

/-- One parsed API response page: the `success` flag, the authoritative
`total_count`, and the returned items. -/
structure Page where
  success : Bool
  total_count : Nat
  results : List Item
  deriving DecidableEq

/-- One HTTP response of the fetch loop: its status code and, for parsed
bodies, the page; `none` stands for an empty/unparsable body. -/
structure Response where
  status : Nat
  body : Option Page
  deriving DecidableEq

/-- The per-identifier transient state of `fetchMarketData`:
`pageIndex` (1-based), the last observed `total`, and the cumulative
`fetched` counter. -/
structure FetchState where
  pageIndex : Nat
  total : Nat
  fetched : Nat
  deriving DecidableEq

/-- The conditional total update of the loop:
`if (total !== page['total_count']) total = page['total_count']`. -/
def adjustTotal (total totalCount : Nat) : Nat :=
  if total ≠ totalCount then totalCount else total

/-- Outcome of one iteration of the do-while body for a given response. -/
inductive StepResult where
  | throttled
  | fatal (msg : String)
  | ok (s : FetchState) (batch : List UpsertOp)
  deriving DecidableEq

/-- One iteration of the do-while body of `fetchMarketData` on state `s`
with response `r`: 429 retries in place; any other non-200 status, an
empty body, an unsuccessful page, or a throwing `pushToDB` aborts the
identifier; otherwise the page's batch is upserted, `total` is adjusted
and `fetched`/`pageIndex` advance. -/
def fetchStep (whitelist : List String) (s : FetchState) (r : Response) : StepResult :=
  if r.status = 429 then
    .throttled
  else if r.status ≠ 200 then
    .fatal ("Unable to fetch page #" ++ toString s.pageIndex
      ++ ": response code was " ++ toString r.status)
  else
    match r.body with
    | none => .fatal "Response is empty"
    | some page =>
      if !page.success then
        .fatal ("Unable to fetch page #" ++ toString s.pageIndex)
      else
        match pushToDB whitelist page.results with
        | .error e => .fatal e
        | .ok ops =>
          .ok ⟨s.pageIndex + 1, adjustTotal s.total page.total_count,
               s.fetched + page.results.length⟩ ops

/-- How one identifier's fetch ended: the loop condition became false,
an error was thrown, or the supplied response trace ran out while the
loop still wanted another page (the loop itself would keep going). -/
inductive LoopOutcome where
  | done (s : FetchState)
  | failed (msg : String)
  | outOfFuel (s : FetchState)
  deriving DecidableEq

/-- Observable trace of one identifier's fetch: the `start=` offsets of
the requests issued in order, the value of `fetched` after each
successful page, the cooldown waits performed, the batches actually
executed against the store, and how the loop ended. -/
structure LoopResult where
  offsets : List Nat
  fetchedAfter : List Nat
  waits : List Nat
  executed : List (List UpsertOp)
  outcome : LoopOutcome
  deriving DecidableEq

/-- The do-while loop of `fetchMarketData` for one identifier, driven by
the list of responses the server returns to its successive requests.
Each iteration requests offset `s.fetched`; a throttled iteration waits
`REQUEST_COOL_DOWN` and continues with the state unchanged; the loop
exits when `fetched < total` fails. -/
def fetchLoop (whitelist : List String) (s : FetchState) :
    List Response → LoopResult
  | [] => ⟨[], [], [], [], .outOfFuel s⟩
  | r :: rest =>
    match fetchStep whitelist s r with
    | .throttled =>
      let res := fetchLoop whitelist s rest
      ⟨s.fetched :: res.offsets, res.fetchedAfter,
       REQUEST_COOL_DOWN :: res.waits, res.executed, res.outcome⟩
    | .fatal msg => ⟨[s.fetched], [], [], [], .failed msg⟩
    | .ok s' batch =>
      if s'.fetched < s'.total then
        let res := fetchLoop whitelist s' rest
        ⟨s.fetched :: res.offsets, s'.fetched :: res.fetchedAfter,
         res.waits, batch :: res.executed, res.outcome⟩
      else
        ⟨[s.fetched], [s'.fetched], [], [batch], .done s'⟩

/-- The initial `FetchProgress` of one identifier:
`pageIndex = 1`, `total = 1`, `fetched = 0`. -/
def initState : FetchState := ⟨1, 1, 0⟩

/-- `fetchAll` for one identifier: run the loop from the initial state. -/
def fetchAll (whitelist : List String) (rs : List Response) : LoopResult :=
  fetchLoop whitelist initState rs

/-- How one full cycle (`fetchMarketData` over all identifiers) ended:
every identifier completed, some identifier threw (the message
propagates), or a response trace ran out mid-identifier. -/
inductive CycleOutcome where
  | completed
  | failed (msg : String)
  | incomplete
  deriving DecidableEq

/-- Observable result of one cycle: the batches executed against the
store, in order, and the way the cycle ended. -/
structure CycleResult where
  executed : List (List UpsertOp)
  outcome : CycleOutcome
  deriving DecidableEq

/-- `fetchMarketData`: iterate the configured identifiers in order; each
identifier's trace of responses drives its own `fetchLoop`. The first
thrown error propagates, skipping every remaining identifier, but the
batches already executed stay executed. -/
def fetchMarketData (whitelist : List String) :
    List (List Response) → CycleResult
  | [] => ⟨[], .completed⟩
  | rs :: rest =>
    let r := fetchAll whitelist rs
    match r.outcome with
    | .done _ =>
      let c := fetchMarketData whitelist rest
      ⟨r.executed ++ c.executed, c.outcome⟩
    | .failed msg => ⟨r.executed, .failed msg⟩
    | .outOfFuel _ => ⟨r.executed, .incomplete⟩

/-- Externally visible actions of `updateMarketListingsData` after the
fetch phase settles, in program order. -/
inductive SchedEvent where
  | writeWatermark (t : Nat)
  | logError (msg : String)
  | armTimer (delay : Nat)
  deriving DecidableEq

/-- Result of one run of `updateMarketListingsData`: batches executed,
the value of `lastUpdate` afterwards, and the events performed after the
fetch phase, in order. -/
structure SchedResult where
  executed : List (List UpsertOp)
  lastUpdate : Nat
  events : List SchedEvent
  deriving DecidableEq

/-- `updateMarketListingsData`: run the fetch phase; on success set
`lastUpdate` to the current time and persist it, on error log it and
leave `lastUpdate` alone; in either case arm the next cycle for the full
configured interval. (An `incomplete` cycle is still inside the fetch
phase, so no post-fetch event has happened yet.) -/
def updateMarketListingsData (whitelist : List String)
    (traces : List (List Response)) (now lastUpdate interval : Nat) :
    SchedResult :=
  let c := fetchMarketData whitelist traces
  match c.outcome with
  | .completed =>
    ⟨c.executed, now, [.writeWatermark now, .armTimer interval]⟩
  | .failed msg =>
    ⟨c.executed, lastUpdate, [.logError msg, .armTimer interval]⟩
  | .incomplete => ⟨c.executed, lastUpdate, []⟩

/-- The startup decision of `start()`. -/
inductive StartAction where
  | runNow
  | armTimer (delay : Int)
  deriving DecidableEq

/-- Startup scheduling of `start()`: with `delta = now − lastUpdate`,
run the first cycle immediately when `delta ≥ interval`, else arm a
one-shot timer for `interval − delta`. Timestamps are JS integer
epoch-milliseconds, so the subtraction is over `Int`. -/
def startSchedule (now lastUpdate interval : Int) : StartAction :=
  let delta := now - lastUpdate
  if delta ≥ interval then .runNow else .armTimer (interval - delta)

/-- Modelled from the spec: the rate-limiting queue is the third-party
`node-throttled-queue` dependency, whose code is not part of this
repository; §4.1 specifies a FIFO of submitted calls whose dispatch
start times are spaced by at least the configured interval. Given the
submission times of the queued calls in FIFO order and the time of the
previous dispatch (if any), this computes each call's dispatch start
time: a call starts as soon as it is submitted, but never earlier than
one interval after the previous dispatch start. -/
def rlDispatchTimes (interval : Nat) :
    Option Nat → List Nat → List Nat
  | _, [] => []
  | none, a :: rest =>
    a :: rlDispatchTimes interval (some a) rest
  | some last, a :: rest =>
    let d := max a (last + interval)
    d :: rlDispatchTimes interval (some d) rest

/-! ### Concrete inputs used in scenarios and witnesses -/

/-- An item with no top-level properties and an empty description. -/
def blankItem : Item := ⟨[], some []⟩

/-- An item lacking a top-level property and lacking the
`asset_description` sub-object entirely. -/
def noDescItem : Item := ⟨[], none⟩

/-- The §8 example item: no top-level `name`, nested
`asset_description.name = "AK-47"`. -/
def ak47Example : Item :=
  ⟨[("hash_name", JVal.str "ak47")], some [("name", JVal.str "AK-47")]⟩

/-- A 200 page response with `total_count = tc` and `n` blank items. -/
def mkPage (tc n : Nat) : Response :=
  ⟨200, some ⟨true, tc, List.replicate n blankItem⟩⟩

/-- A 200 page response reporting `total_count = tc` with no items. -/
def zeroPage (tc : Nat) : Response := ⟨200, some ⟨true, tc, []⟩⟩

/-! ### Helper lemmas about the upserter -/

/-- The keys of the whitelisted portion of a successfully built `$set`
document are exactly the iterated properties that the whitelist
contains, in order. -/
theorem buildProps_keys (wl : List String) (item : Item) :
    ∀ (l : List String) (res : List (String × Option JVal)),
      buildProps wl item l = .ok res →
      res.map Prod.fst = l.filter (fun p => wl.contains p) := by
  intro l
  induction l with
  | nil => intro res h; simp [buildProps] at h; simp [← h]
  | cons q rest ih =>
    intro res h
    simp only [buildProps] at h
    by_cases hq : wl.contains q
    · simp only [hq, if_pos] at h
      cases hr : resolveProp item q with
      | error e => rw [hr] at h; exact absurd h (by simp)
      | ok v =>
        rw [hr] at h
        cases hb : buildProps wl item rest with
        | error e => rw [hb] at h; exact absurd h (by simp)
        | ok l' =>
          rw [hb] at h
          cases h
          rw [List.filter_cons_of_pos hq, List.map_cons, ih l' hb]
    · simp only [hq, if_neg, Bool.false_eq_true, not_false_iff] at h
      rw [List.filter_cons_of_neg (by simpa using hq), ih res h]

/-- A successfully resolved, whitelisted property ends up in the built
whitelisted portion with its resolved value. -/
theorem buildProps_mem (wl : List String) (item : Item) :
    ∀ (l : List String) (res : List (String × Option JVal)),
      buildProps wl item l = .ok res →
      ∀ p ∈ l, wl.contains p →
        ∀ v, resolveProp item p = .ok v → (p, v) ∈ res := by
  intro l
  induction l with
  | nil => intro res _ p hp; exact absurd hp (by simp)
  | cons q rest ih =>
    intro res h p hp hpw v hv
    simp only [buildProps] at h
    by_cases hq : wl.contains q
    · simp only [hq, if_pos] at h
      cases hr : resolveProp item q with
      | error e => rw [hr] at h; exact absurd h (by simp)
      | ok vq =>
        rw [hr] at h
        cases hb : buildProps wl item rest with
        | error e => rw [hb] at h; exact absurd h (by simp)
        | ok l' =>
          rw [hb] at h
          cases h
          rcases List.mem_cons.mp hp with hpq | hprest
          · subst hpq
            rw [hv] at hr
            cases hr
            exact List.mem_cons_self _ _
          · exact List.mem_cons_of_mem _ (ih l' hb p hprest hpw v hv)
    · simp only [hq, if_neg, Bool.false_eq_true, not_false_iff] at h
      rcases List.mem_cons.mp hp with hpq | hprest
      · subst hpq; rw [hpw] at hq; exact absurd rfl hq
      · exact ih res h p hprest hpw v hv

/-- A whitelisted property whose resolution throws makes the whole
`$set` construction for the item throw. -/
theorem buildProps_error (wl : List String) (item : Item) :
    ∀ (l : List String) (p : String), p ∈ l → wl.contains p →
      (∃ e, resolveProp item p = .error e) →
      ∃ e, buildProps wl item l = .error e := by
  intro l
  induction l with
  | nil => intro p hp; exact absurd hp (by simp)
  | cons q rest ih =>
    intro p hp hpw hpe
    simp only [buildProps]
    by_cases hq : wl.contains q
    · simp only [hq, if_pos]
      cases hr : resolveProp item q with
      | error e => exact ⟨e, rfl⟩
      | ok vq =>
        rcases List.mem_cons.mp hp with hpq | hprest
        · subst hpq
          rcases hpe with ⟨e, he⟩
          rw [he] at hr
          exact absurd hr (by simp)
        · rcases ih p hprest hpw hpe with ⟨e, he⟩
          rw [he]
          exact ⟨e, rfl⟩
    · simp only [hq, if_neg, Bool.false_eq_true, not_false_iff]
      rcases List.mem_cons.mp hp with hpq | hprest
      · subst hpq; rw [hpw] at hq; exact absurd rfl hq
      · exact ih p hprest hpw hpe

/-! ### Helper lemmas about the fetch loop -/

/-- The guarded total update is extensionally an unconditional
overwrite with the page's reported count. -/
theorem adjustTotal_overwrite (total totalCount : Nat) :
    adjustTotal total totalCount = totalCount := by
  by_cases h : total = totalCount <;> simp [adjustTotal, h]

/-- A zero-item 200 page advances `pageIndex`, overwrites `total` with
the reported count, executes an empty batch, and leaves `fetched`
untouched. -/
theorem fetchStep_zeroPage (wl : List String) (s : FetchState) (tc : Nat) :
    fetchStep wl s (zeroPage tc) = .ok ⟨s.pageIndex + 1, tc, s.fetched⟩ [] := by
  simp [fetchStep, zeroPage, pushToDB, adjustTotal_overwrite]

/-! ### Claims about the batch upserter -/

/-- Claim C5: for every item and every whitelisted field, the value
persisted is the item's own top-level value when present (not
`undefined`), otherwise the value found under the nested description
sub-object; with whitelist `["name"]` and an item whose only `name` is
`asset_description.name = "AK-47"`, the stored document's `name` equals
`"AK-47"`. -/
theorem C5_field_fallback :
    (∀ (item : Item) (p : String) (v : JVal),
        getProp item.props p = some v → resolveProp item p = .ok (some v)) ∧
    (∀ (item : Item) (p : String) (d : List (String × JVal)),
        getProp item.props p = none → item.asset_description = some d →
        resolveProp item p = .ok (getProp d p)) ∧
    (∀ (wl : List String) (item : Item) (p : String)
        (res : List (String × Option JVal)) (v : Option JVal),
        buildToSet wl item = .ok res → p ∈ ITEM_PROPERTIES → p ∈ wl →
        resolveProp item p = .ok v → (p, v) ∈ res) ∧
    buildToSet ["name"] ak47Example =
      .ok [("sell_price", none), ("name", some (JVal.str "AK-47"))] := by
  refine ⟨?_, ?_, ?_, rfl⟩
  · intro item p v h
    simp [resolveProp, h]
  · intro item p d h hd
    simp [resolveProp, h, hd]
  · intro wl item p res v hts hpi hpw hv
    simp only [buildToSet] at hts
    cases hb : buildProps wl item ITEM_PROPERTIES with
    | error e => rw [hb] at hts; exact absurd hts (by simp)
    | ok l =>
      rw [hb] at hts
      cases hts
      exact List.mem_cons_of_mem _
        (buildProps_mem wl item ITEM_PROPERTIES l hb p hpi (by simpa using hpw) v hv)

/-- Claim C5 witness: a top-level value is taken as-is. -/
theorem C5_field_fallback_witness :
    resolveProp ⟨[("name", JVal.str "X")], none⟩ "name" = .ok (some (JVal.str "X")) :=
  C5_field_fallback.1 ⟨[("name", JVal.str "X")], none⟩ "name" (JVal.str "X") rfl

/-- Claim C6: the fields written by an upsert operation are exactly
`sell_price` plus the configured whitelist (the whitelist being drawn
from `ITEM_PROPERTIES`, as in §3 of the spec); `sell_price` is always
written, and a field absent from the whitelist is never written. -/
theorem C6_written_fields :
    (∀ (wl : List String) (item : Item) (res : List (String × Option JVal)),
        buildToSet wl item = .ok res →
        res.map Prod.fst =
          "sell_price" :: ITEM_PROPERTIES.filter (fun p => wl.contains p)) ∧
    (∀ (wl : List String) (item : Item) (res : List (String × Option JVal)),
        buildToSet wl item = .ok res → "sell_price" ∈ res.map Prod.fst) ∧
    (∀ (wl : List String) (item : Item) (res : List (String × Option JVal))
        (p : String), buildToSet wl item = .ok res →
        (p ∈ res.map Prod.fst ↔
          p = "sell_price" ∨ (p ∈ wl ∧ p ∈ ITEM_PROPERTIES))) ∧
    (∀ (wl : List String) (item : Item) (res : List (String × Option JVal))
        (p : String), buildToSet wl item = .ok res → wl ⊆ ITEM_PROPERTIES →
        (p ∈ res.map Prod.fst ↔ p = "sell_price" ∨ p ∈ wl)) ∧
    (∀ (wl : List String) (item : Item) (res : List (String × Option JVal))
        (p : String), buildToSet wl item = .ok res →
        p ≠ "sell_price" → p ∉ wl → p ∉ res.map Prod.fst) := by
  have keys : ∀ (wl : List String) (item : Item) (res : List (String × Option JVal)),
      buildToSet wl item = .ok res →
      res.map Prod.fst =
        "sell_price" :: ITEM_PROPERTIES.filter (fun p => wl.contains p) := by
    intro wl item res hts
    simp only [buildToSet] at hts
    cases hb : buildProps wl item ITEM_PROPERTIES with
    | error e => rw [hb] at hts; exact absurd hts (by simp)
    | ok l =>
      rw [hb] at hts
      cases hts
      rw [List.map_cons, buildProps_keys wl item ITEM_PROPERTIES l hb]
  have char : ∀ (wl : List String) (item : Item) (res : List (String × Option JVal))
      (p : String), buildToSet wl item = .ok res →
      (p ∈ res.map Prod.fst ↔
        p = "sell_price" ∨ (p ∈ wl ∧ p ∈ ITEM_PROPERTIES)) := by
    intro wl item res p hts
    rw [keys wl item res hts]
    simp [List.mem_filter, and_comm]
  refine ⟨keys, ?_, char, ?_, ?_⟩
  · intro wl item res hts
    rw [keys wl item res hts]
    exact List.mem_cons_self _ _
  · intro wl item res p hts hsub
    rw [char wl item res p hts]
    constructor
    · rintro (h | ⟨h, _⟩)
      · exact Or.inl h
      · exact Or.inr h
    · rintro (h | h)
      · exact Or.inl h
      · exact Or.inr ⟨h, hsub h⟩
  · intro wl item res p hts hsp hwl hmem
    rcases (char wl item res p hts).mp hmem with h | ⟨h, _⟩
    · exact hsp h
    · exact hwl h

/-- Claim C6 witness: with whitelist `["name"]` the written keys of the
example item are exactly `sell_price` and `name`. -/
theorem C6_written_fields_witness :
    [("sell_price", (none : Option JVal)),
      ("name", some (JVal.str "AK-47"))].map Prod.fst =
      "sell_price" :: ITEM_PROPERTIES.filter (fun p => ["name"].contains p) :=
  C6_written_fields.1 ["name"] ak47Example
    [("sell_price", none), ("name", some (JVal.str "AK-47"))] rfl

/-- Claim C10: an item missing a whitelisted field at top level and
missing `asset_description` entirely makes the `$set` construction
throw; any such item makes the whole page's `pushToDB` throw before the
batch executes, and that error makes the fetch step fatal, failing the
identifier's loop. -/
theorem C10_missing_description_throws :
    (∀ (wl : List String) (item : Item) (p : String),
        p ∈ ITEM_PROPERTIES → p ∈ wl →
        getProp item.props p = none → item.asset_description = none →
        ∃ e, buildToSet wl item = .error e) ∧
    (∀ (wl : List String) (items : List Item) (item : Item),
        item ∈ items → (∃ e, buildToSet wl item = .error e) →
        ∃ e, pushToDB wl items = .error e) ∧
    (∀ (wl : List String) (s : FetchState) (page : Page) (e : String),
        page.success = true → pushToDB wl page.results = .error e →
        fetchStep wl s ⟨200, some page⟩ = .fatal e) ∧
    (∀ (wl : List String) (s : FetchState) (r : Response)
        (rest : List Response) (msg : String),
        fetchStep wl s r = .fatal msg →
        (fetchLoop wl s (r :: rest)).outcome = .failed msg) := by
  refine ⟨?_, ?_, ?_, ?_⟩
  · intro wl item p hpi hpw htop hdesc
    have hre : ∃ e, resolveProp item p = .error e := by
      simp [resolveProp, htop, hdesc]
    rcases buildProps_error wl item ITEM_PROPERTIES p hpi
      (by simpa using hpw) hre with ⟨e, he⟩
    exact ⟨e, by simp [buildToSet, he]⟩
  · intro wl items
    induction items with
    | nil => intro item h; exact absurd h (by simp)
    | cons hd tl ih =>
      intro item hmem ⟨e, he⟩
      rcases List.mem_cons.mp hmem with hh | ht
      · subst hh
        exact ⟨e, by simp [pushToDB, he]⟩
      · rcases ih item ht ⟨e, he⟩ with ⟨e', he'⟩
        cases hb : buildToSet wl hd with
        | error e'' => exact ⟨e'', by simp [pushToDB, hb]⟩
        | ok ts => exact ⟨e', by simp [pushToDB, hb, he']⟩
  · intro wl s page e hs hp
    simp [fetchStep, hs, hp]
  · intro wl s r rest msg h
    simp [fetchLoop, h]

/-- Claim C10 witness: a page holding an item with no top-level `name`
and no `asset_description` fails the fetch loop with the TypeError. -/
theorem C10_missing_description_throws_witness :
    (fetchLoop ["name"] initState
        [⟨200, some ⟨true, 1, [noDescItem]⟩⟩]).outcome =
      .failed "TypeError: cannot read property name of undefined" :=
  C10_missing_description_throws.2.2.2 ["name"] initState
    ⟨200, some ⟨true, 1, [noDescItem]⟩⟩ []
    "TypeError: cannot read property name of undefined" rfl

/-- Unfolding lemma: a throttled response records the request's offset
and a cooldown wait, then continues the loop on the unchanged state. -/
theorem fetchLoop_throttled_cons (wl : List String) (s : FetchState)
    (r : Response) (rest : List Response) (h : fetchStep wl s r = .throttled) :
    fetchLoop wl s (r :: rest) =
      ⟨s.fetched :: (fetchLoop wl s rest).offsets,
       (fetchLoop wl s rest).fetchedAfter,
       REQUEST_COOL_DOWN :: (fetchLoop wl s rest).waits,
       (fetchLoop wl s rest).executed,
       (fetchLoop wl s rest).outcome⟩ := by
  simp [fetchLoop, h]

/-- Unfolding lemma: a fatal step stops the loop with its message. -/
theorem fetchLoop_fatal_cons (wl : List String) (s : FetchState)
    (r : Response) (rest : List Response) (msg : String)
    (h : fetchStep wl s r = .fatal msg) :
    fetchLoop wl s (r :: rest) = ⟨[s.fetched], [], [], [], .failed msg⟩ := by
  simp [fetchLoop, h]

/-- Unfolding lemma: a successful page that leaves `fetched < total`
records its effects and continues the loop on the advanced state. -/
theorem fetchLoop_ok_continue (wl : List String) (s : FetchState)
    (r : Response) (rest : List Response) (s1 : FetchState)
    (batch : List UpsertOp) (h : fetchStep wl s r = .ok s1 batch)
    (hc : s1.fetched < s1.total) :
    fetchLoop wl s (r :: rest) =
      ⟨s.fetched :: (fetchLoop wl s1 rest).offsets,
       s1.fetched :: (fetchLoop wl s1 rest).fetchedAfter,
       (fetchLoop wl s1 rest).waits,
       batch :: (fetchLoop wl s1 rest).executed,
       (fetchLoop wl s1 rest).outcome⟩ := by
  simp [fetchLoop, h, hc]

/-- Unfolding lemma: a successful page that reaches `fetched ≥ total`
ends the loop there, whatever responses would have followed. -/
theorem fetchLoop_ok_exit (wl : List String) (s : FetchState)
    (r : Response) (rest : List Response) (s1 : FetchState)
    (batch : List UpsertOp) (h : fetchStep wl s r = .ok s1 batch)
    (hc : ¬s1.fetched < s1.total) :
    fetchLoop wl s (r :: rest) = ⟨[s.fetched], [s1.fetched], [], [batch], .done s1⟩ := by
  simp [fetchLoop, h, hc]

/-! ### Claims about the fetch loop -/

/-- Claim C1: in an error-free run, `fetched` is unchanged by a
throttled iteration and grows by exactly the returned item count on
each successful page (so it is non-decreasing); after a successful page
`total` equals that page's `total_count` — the guarded assignment is an
unconditional overwrite; and the loop exits exactly when
`fetched ≥` the most recently observed `total`. -/
theorem C1_fetch_progress_invariants :
    (∀ (wl : List String) (s : FetchState) (r : Response) (rest : List Response),
        fetchStep wl s r = .throttled →
        fetchLoop wl s (r :: rest) =
          ⟨s.fetched :: (fetchLoop wl s rest).offsets,
           (fetchLoop wl s rest).fetchedAfter,
           REQUEST_COOL_DOWN :: (fetchLoop wl s rest).waits,
           (fetchLoop wl s rest).executed,
           (fetchLoop wl s rest).outcome⟩) ∧
    (∀ (wl : List String) (s : FetchState) (r : Response) (s' : FetchState)
        (batch : List UpsertOp), fetchStep wl s r = .ok s' batch →
        ∃ page, r.body = some page ∧
          s'.fetched = s.fetched + page.results.length ∧
          s.fetched ≤ s'.fetched ∧
          s'.total = page.total_count) ∧
    (∀ (total totalCount : Nat), adjustTotal total totalCount = totalCount) ∧
    (∀ (wl : List String) (s : FetchState) (rs : List Response) (s' : FetchState),
        (fetchLoop wl s rs).outcome = .done s' → s'.total ≤ s'.fetched) ∧
    (∀ (wl : List String) (s : FetchState) (r : Response) (rest : List Response)
        (s' : FetchState) (batch : List UpsertOp),
        fetchStep wl s r = .ok s' batch →
        (s'.fetched < s'.total →
          (fetchLoop wl s (r :: rest)).outcome = (fetchLoop wl s' rest).outcome) ∧
        (s'.total ≤ s'.fetched →
          (fetchLoop wl s (r :: rest)).outcome = .done s')) := by
  refine ⟨?_, ?_, adjustTotal_overwrite, ?_, ?_⟩
  · intro wl s r rest h
    simp [fetchLoop, h]
  · intro wl s r s' batch h
    simp only [fetchStep] at h
    by_cases h429 : r.status = 429
    · rw [if_pos h429] at h; exact absurd h (by simp)
    · rw [if_neg h429] at h
      by_cases h200 : r.status ≠ 200
      · rw [if_pos h200] at h; exact absurd h (by simp)
      · rw [if_neg h200] at h
        cases hb : r.body with
        | none => rw [hb] at h; exact absurd h (by simp)
        | some page =>
          rw [hb] at h
          by_cases hsu : page.success
          · simp only [hsu, Bool.not_true, Bool.false_eq_true, if_neg,
              not_false_iff] at h
            cases hops : pushToDB wl page.results with
            | error e => rw [hops] at h; exact absurd h (by simp)
            | ok ops =>
              rw [hops] at h
              cases h
              exact ⟨page, rfl, rfl, Nat.le_add_right _ _,
                adjustTotal_overwrite _ _⟩
          · simp only [Bool.not_eq_true] at hsu
            simp only [hsu, Bool.not_false, if_pos] at h
            exact absurd h (by simp)
  · intro wl s rs
    induction rs generalizing s with
    | nil => intro s' h; exact absurd h (by simp [fetchLoop])
    | cons r rest ih =>
      intro s' h
      cases hstep : fetchStep wl s r with
      | throttled =>
        rw [fetchLoop_throttled_cons wl s r rest hstep] at h
        exact ih s s' h
      | fatal msg =>
        rw [fetchLoop_fatal_cons wl s r rest msg hstep] at h
        exact absurd h (by simp)
      | ok s1 batch =>
        by_cases hc : s1.fetched < s1.total
        · rw [fetchLoop_ok_continue wl s r rest s1 batch hstep hc] at h
          exact ih s1 s' h
        · rw [fetchLoop_ok_exit wl s r rest s1 batch hstep hc] at h
          simp only [LoopOutcome.done.injEq] at h
          subst h
          exact Nat.le_of_not_lt hc
  · intro wl s r rest s' batch h
    constructor
    · intro hc
      rw [fetchLoop_ok_continue wl s r rest s' batch h hc]
    · intro hc
      rw [fetchLoop_ok_exit wl s r rest s' batch h (Nat.not_lt.mpr hc)]

/-- Claim C1 witness: one successful single-item page with
`total_count = 1` ends the loop in a state with `total ≤ fetched`. -/
theorem C1_fetch_progress_invariants_witness :
    (⟨2, 1, 1⟩ : FetchState).total ≤ (⟨2, 1, 1⟩ : FetchState).fetched :=
  C1_fetch_progress_invariants.2.2.2.1 [] initState [mkPage 1 1]
    ⟨2, 1, 1⟩ (by decide)

/-- Claim C2: with every page a 200 success reporting
`total_count = 250` and returning `min(100, 250 − offset)` items, the
loop issues exactly 3 requests at offsets 0, 100 and 200, `fetched` is
100, 200, 250 after the successive pages, and the loop then exits. -/
theorem C2_three_pages_scenario :
    (fetchAll [] [mkPage 250 100, mkPage 250 100, mkPage 250 50]).offsets =
      [0, 100, 200] ∧
    (fetchAll [] [mkPage 250 100, mkPage 250 100, mkPage 250 50]).offsets.length = 3 ∧
    (fetchAll [] [mkPage 250 100, mkPage 250 100, mkPage 250 50]).fetchedAfter =
      [100, 200, 250] ∧
    (fetchAll [] [mkPage 250 100, mkPage 250 100, mkPage 250 50]).outcome =
      .done ⟨4, 250, 250⟩ := by
  refine ⟨by decide, by decide, by decide, by decide⟩

/-- Claim C3: a 429 iteration leaves `fetched`, `pageIndex`, `total`
unchanged (the loop continues with the very same state), performs no
upsert, waits the 30-second cooldown, and the next request is issued at
the identical offset; a 429 never fails the identifier's fetch. -/
theorem C3_throttle_frame :
    (∀ (wl : List String) (s : FetchState) (r : Response),
        r.status = 429 → fetchStep wl s r = .throttled) ∧
    (∀ (wl : List String) (s : FetchState) (r : Response) (rest : List Response),
        r.status = 429 →
        fetchLoop wl s (r :: rest) =
          ⟨s.fetched :: (fetchLoop wl s rest).offsets,
           (fetchLoop wl s rest).fetchedAfter,
           REQUEST_COOL_DOWN :: (fetchLoop wl s rest).waits,
           (fetchLoop wl s rest).executed,
           (fetchLoop wl s rest).outcome⟩) ∧
    REQUEST_COOL_DOWN = 30000 ∧
    (∀ (wl : List String) (s : FetchState) (rs : List Response),
        rs ≠ [] → (fetchLoop wl s rs).offsets.head? = some s.fetched) := by
  have hstep429 : ∀ (wl : List String) (s : FetchState) (r : Response),
      r.status = 429 → fetchStep wl s r = .throttled := by
    intro wl s r h
    simp [fetchStep, h]
  refine ⟨hstep429, ?_, rfl, ?_⟩
  · intro wl s r rest h
    simp [fetchLoop, hstep429 wl s r h]
  · intro wl s rs hne
    cases rs with
    | nil => exact absurd rfl hne
    | cons r rest =>
      cases hstep : fetchStep wl s r with
      | throttled => simp [fetchLoop, hstep]
      | fatal msg => simp [fetchLoop, hstep]
      | ok s1 batch =>
        by_cases hc : s1.fetched < s1.total
        · simp [fetchLoop, hstep, if_pos hc]
        · simp [fetchLoop, hstep, if_neg hc]

/-- Claim C3 witness: one 429 response before a successful page leaves
the whole trace equal to the successful trace with the same offset
prepended and a cooldown wait recorded. -/
theorem C3_throttle_frame_witness :
    fetchLoop [] initState [⟨429, none⟩] =
      ⟨initState.fetched :: (fetchLoop [] initState []).offsets,
       (fetchLoop [] initState []).fetchedAfter,
       REQUEST_COOL_DOWN :: (fetchLoop [] initState []).waits,
       (fetchLoop [] initState []).executed,
       (fetchLoop [] initState []).outcome⟩ :=
  C3_throttle_frame.2.1 [] initState ⟨429, none⟩ [] rfl

/-- Claim C4: a successful zero-item page whose `total_count` still
exceeds `fetched` does not move `fetched` at all, so the gap to `total`
never shrinks and the loop never reaches its exit condition however
many such responses the server keeps returning. -/
theorem C4_zero_item_nontermination :
    (∀ (wl : List String) (s : FetchState) (tc : Nat),
        fetchStep wl s (zeroPage tc) = .ok ⟨s.pageIndex + 1, tc, s.fetched⟩ []) ∧
    (∀ (wl : List String) (tc : Nat) (s : FetchState) (n : Nat),
        s.fetched < s.total → s.fetched < tc →
        (fetchLoop wl s (List.replicate (n + 1) (zeroPage tc))).outcome =
          .outOfFuel ⟨s.pageIndex + (n + 1), tc, s.fetched⟩) ∧
    (∀ (wl : List String) (tc : Nat) (s : FetchState) (n : Nat) (s' : FetchState),
        s.fetched < s.total → s.fetched < tc →
        (fetchLoop wl s (List.replicate n (zeroPage tc))).outcome ≠ .done s') := by
  have key : ∀ (wl : List String) (tc : Nat) (n : Nat) (s : FetchState),
      s.fetched < s.total → s.fetched < tc →
      (fetchLoop wl s (List.replicate (n + 1) (zeroPage tc))).outcome =
        .outOfFuel ⟨s.pageIndex + (n + 1), tc, s.fetched⟩ := by
    intro wl tc n
    induction n with
    | zero =>
      intro s _ htc
      rw [List.replicate_succ, List.replicate_zero,
        fetchLoop_ok_continue wl s (zeroPage tc) [] ⟨s.pageIndex + 1, tc, s.fetched⟩
          [] (fetchStep_zeroPage wl s tc) htc]
      rfl
    | succ m ih =>
      intro s _ htc
      rw [List.replicate_succ,
        fetchLoop_ok_continue wl s (zeroPage tc) (List.replicate (m + 1) (zeroPage tc))
          ⟨s.pageIndex + 1, tc, s.fetched⟩ [] (fetchStep_zeroPage wl s tc) htc]
      have hrec := ih ⟨s.pageIndex + 1, tc, s.fetched⟩ htc htc
      have harr : s.pageIndex + 1 + (m + 1) = s.pageIndex + (m + 1 + 1) := by omega
      simpa [harr] using hrec
  refine ⟨fetchStep_zeroPage, fun wl tc s n => key wl tc n s, ?_⟩
  intro wl tc s n s' hlt htc h
  cases n with
  | zero => simp [List.replicate, fetchLoop] at h
  | succ m => rw [key wl tc m s hlt htc] at h; exact absurd h (by simp)

/-- Claim C4 witness: three zero-item pages reporting `total_count = 5`
leave the loop still running with `fetched` stuck at its initial 0. -/
theorem C4_zero_item_nontermination_witness :
    (fetchLoop [] initState (List.replicate (2 + 1) (zeroPage 5))).outcome =
      .outOfFuel ⟨initState.pageIndex + (2 + 1), 5, initState.fetched⟩ :=
  C4_zero_item_nontermination.2.1 [] 5 initState 2 (by decide) (by decide)

/-! ### Claims about the cycle scheduler -/

/-- Claim C7: the first error thrown while processing an identifier
short-circuits the cycle's remaining identifiers; the scheduler catches
it, logs it, leaves the watermark untouched and still arms the next
cycle for the full interval, while batches already executed stay
executed; an error-free cycle sets the watermark to the current time
and persists it before arming the next cycle. -/
theorem C7_cycle_error_handling :
    (∀ (wl : List String) (rs : List Response) (rest : List (List Response))
        (msg : String), (fetchAll wl rs).outcome = .failed msg →
        fetchMarketData wl (rs :: rest) = ⟨(fetchAll wl rs).executed, .failed msg⟩) ∧
    (∀ (wl : List String) (rs : List Response) (rest : List (List Response))
        (s' : FetchState), (fetchAll wl rs).outcome = .done s' →
        fetchMarketData wl (rs :: rest) =
          ⟨(fetchAll wl rs).executed ++ (fetchMarketData wl rest).executed,
           (fetchMarketData wl rest).outcome⟩) ∧
    (∀ (wl : List String) (traces : List (List Response))
        (now lastUpdate interval : Nat) (msg : String),
        (fetchMarketData wl traces).outcome = .failed msg →
        updateMarketListingsData wl traces now lastUpdate interval =
          ⟨(fetchMarketData wl traces).executed, lastUpdate,
           [.logError msg, .armTimer interval]⟩) ∧
    (∀ (wl : List String) (traces : List (List Response))
        (now lastUpdate interval : Nat),
        (fetchMarketData wl traces).outcome = .completed →
        updateMarketListingsData wl traces now lastUpdate interval =
          ⟨(fetchMarketData wl traces).executed, now,
           [.writeWatermark now, .armTimer interval]⟩) := by
  refine ⟨?_, ?_, ?_, ?_⟩
  · intro wl rs rest msg h
    simp [fetchMarketData, h]
  · intro wl rs rest s' h
    simp [fetchMarketData, h]
  · intro wl traces now lastUpdate interval msg h
    simp [updateMarketListingsData, h]
  · intro wl traces now lastUpdate interval h
    simp [updateMarketListingsData, h]

/-- Claim C7 witness: the second identifier's non-200 status fails the
cycle; the first identifier's batch stays executed, the watermark keeps
its old value 7, and the next cycle is armed for the full interval. -/
theorem C7_cycle_error_handling_witness :
    updateMarketListingsData [] [[mkPage 1 1], [⟨500, none⟩]] 99 7 1000 =
      ⟨[[⟨none, [("sell_price", none)]⟩]], 7,
       [.logError "Unable to fetch page #1: response code was 500",
        .armTimer 1000]⟩ :=
  C7_cycle_error_handling.2.2.1 [] [[mkPage 1 1], [⟨500, none⟩]] 99 7 1000
    "Unable to fetch page #1: response code was 500" (by decide)

/-- Claim C8: at startup, with `delta = now − watermark`, the first
cycle runs immediately when `delta ≥ interval` and is otherwise armed
for exactly `interval − delta`; a zero watermark (never run) means an
immediate first run whenever the clock is past the interval. -/
theorem C8_startup_schedule :
    (∀ now lastUpdate interval : Int, now - lastUpdate ≥ interval →
        startSchedule now lastUpdate interval = .runNow) ∧
    (∀ now lastUpdate interval : Int, now - lastUpdate < interval →
        startSchedule now lastUpdate interval =
          .armTimer (interval - (now - lastUpdate))) ∧
    (∀ now interval : Int, interval ≤ now →
        startSchedule now 0 interval = .runNow) := by
  refine ⟨?_, ?_, ?_⟩
  · intro now lastUpdate interval h
    simp [startSchedule, h]
  · intro now lastUpdate interval h
    simp [startSchedule, not_le.mpr h]
  · intro now interval h
    have h0 : now - 0 ≥ interval := by omega
    simp only [startSchedule, h0, ge_iff_le, if_pos]

/-- Claim C8 witness: with watermark 0 and an epoch-scale clock the
first cycle runs immediately. -/
theorem C8_startup_schedule_witness :
    startSchedule 1500000000000 0 60000 = .runNow :=
  C8_startup_schedule.2.2 1500000000000 60000 (by decide)

/-! ### Claim about the rate limiter -/

/-- Dispatch times after a recorded previous dispatch are spaced by at
least the interval, and the first of them is at least one interval
after that previous dispatch. -/
theorem rlDispatchTimes_chain_some (interval : Nat) :
    ∀ (l : List Nat) (last : Nat),
      List.Chain' (fun x y => x + interval ≤ y)
        (rlDispatchTimes interval (some last) l) ∧
      (∀ y ∈ (rlDispatchTimes interval (some last) l).head?,
        last + interval ≤ y) := by
  intro l
  induction l with
  | nil =>
    intro last
    exact ⟨List.chain'_nil, by intro y hy; simp [rlDispatchTimes] at hy⟩
  | cons a rest ih =>
    intro last
    constructor
    · rw [show rlDispatchTimes interval (some last) (a :: rest) =
          max a (last + interval) ::
            rlDispatchTimes interval (some (max a (last + interval))) rest from rfl,
        List.chain'_cons']
      exact ⟨(ih (max a (last + interval))).2, (ih (max a (last + interval))).1⟩
    · intro y hy
      simp [rlDispatchTimes] at hy
      subst hy
      exact Nat.le_max_right _ _

/-- Every submitted call dispatches no earlier than its submission. -/
theorem rlDispatchTimes_le_arrival (interval : Nat) :
    ∀ (l : List Nat) (st : Option Nat),
      List.Forall₂ (fun a d => a ≤ d) l (rlDispatchTimes interval st l) := by
  intro l
  induction l with
  | nil => intro st; cases st <;> exact List.Forall₂.nil
  | cons a rest ih =>
    intro st
    cases st with
    | none => exact List.Forall₂.cons (Nat.le_refl a) (ih (some a))
    | some last =>
      exact List.Forall₂.cons (Nat.le_max_left _ _)
        (ih (some (max a (last + interval))))

/-- Claim C9: the rate limiter (modelled from the spec, see
`rlDispatchTimes`) serves requests in submission order — the dispatch
list is aligned one-to-one, in order, with the submission list and its
start times are monotone — and any two consecutive dispatch starts are
at least the configured interval (10000 ms) apart, for every submission
pattern. -/
theorem C9_rate_limiter_fifo_spacing :
    REQUEST_INTERVAL = 10000 ∧
    (∀ (interval : Nat) (st : Option Nat) (arrivals : List Nat),
        List.Chain' (fun x y => x + interval ≤ y)
          (rlDispatchTimes interval st arrivals)) ∧
    (∀ (interval : Nat) (st : Option Nat) (arrivals : List Nat),
        List.Chain' (fun x y => x ≤ y) (rlDispatchTimes interval st arrivals)) ∧
    (∀ (interval : Nat) (st : Option Nat) (arrivals : List Nat),
        List.Forall₂ (fun a d => a ≤ d)
          arrivals (rlDispatchTimes interval st arrivals)) := by
  have chain : ∀ (interval : Nat) (st : Option Nat) (arrivals : List Nat),
      List.Chain' (fun x y => x + interval ≤ y)
        (rlDispatchTimes interval st arrivals) := by
    intro interval st arrivals
    cases st with
    | some last => exact (rlDispatchTimes_chain_some interval arrivals last).1
    | none =>
      cases arrivals with
      | nil => exact List.chain'_nil
      | cons a rest =>
        rw [show rlDispatchTimes interval none (a :: rest) =
            a :: rlDispatchTimes interval (some a) rest from rfl,
          List.chain'_cons']
        exact ⟨(rlDispatchTimes_chain_some interval rest a).2,
          (rlDispatchTimes_chain_some interval rest a).1⟩
  refine ⟨rfl, chain,
    fun interval st arrivals =>
      List.Chain'.imp (fun a b h => by omega) (chain interval st arrivals),
    fun interval st arrivals => rlDispatchTimes_le_arrival interval arrivals st⟩

end SMO
